import Mathlib

/-!
Verification of the implicit geologic modeling core of `blockworlds`
(`src/blockworlds/implicit.py`): the serialization contract of
`GeoHistory`/`GeoEvent`, chain construction (`add_event`), the
`soft_if_then` smooth-step kernel, prior distributions
(`UniGaussianDist`, `UniformDist`) and their log-densities, the
parameter-sampling entry points, and the `rockprops` field evaluators
of the event variants.

Floating-point values of the Python source are modeled as real numbers
(`ℝ`); numpy elementwise array operations are modeled as `List` maps.
-/

namespace Blockworlds

/-! ## Serialization of a `GeoHistory`

A `GeoEvent`'s parameter state is its list of parameter values in the
declared `_pars` order; `GeoEvent.serialize` returns exactly that list
(`np.array([getattr(self, attr) for attr in self._pars])`), so an event
is modeled by the list itself and a history by the list of its events'
parameter lists in chain order. -/

/-- `GeoEvent.deserialize(*args)` runs
`for i in range(len(args)): setattr(self, self._pars[i], args[i])`:
the first `len(args)` parameters are overwritten in order, the
remaining parameters keep their previous values.  (Meaningful when
`args.length ≤ vals.length`, which every call from
`GeoHistory.deserialize` satisfies since its chunks are `take Npars`.) -/
def eventDeserialize (vals args : List ℝ) : List ℝ :=
  args ++ vals.drop args.length

/-- `GeoHistory.serialize`:
`np.concatenate([event.serialize() for event in self.event_list])`. -/
def historySerialize (h : List (List ℝ)) : List ℝ :=
  h.flatten

/-- `GeoHistory.deserialize(pvec)`: walks the event list, peeling off
`psub, pvec = pvec[:event.Npars], pvec[event.Npars:]` for each event
and calling `event.deserialize(*psub)`.  There is no length check
anywhere in the Python source. -/
def historyDeserialize : List (List ℝ) → List ℝ → List (List ℝ)
  | [], _ => []
  | e :: es, pvec =>
    eventDeserialize e (pvec.take e.length) :: historyDeserialize es (pvec.drop e.length)

/-- Sum of the per-event parameter counts of a chain
(`event.Npars = len(event._pars)` summed over the event list). -/
def totalNpars (h : List (List ℝ)) : ℕ :=
  (h.map List.length).sum

/-! ## The smooth-step kernel `soft_if_then`

The Python function operates elementwise on numpy arrays: it first
computes the linear blend `0.5*(y0+y1) - (y0-y1)*d/h` for every
element, then overwrites the entries with `d < -0.5*h` by `y0` and the
entries with `d > +0.5*h` by `y1`, in that mask order.  The model below
is the per-element computation with the same mask order. -/

open Classical in
/-- `soft_if_then(d, y0, y1, h)` at one array element. -/
noncomputable def soft_if_then (d y0 y1 h : ℝ) : ℝ :=
  let result := 0.5 * (y0 + y1) - (y0 - y1) * d / h
  let result2 := if d < -(0.5 * h) then y0 else result
  if d > 0.5 * h then y1 else result2

/-! ## Prior distributions

`UniGaussianDist.__call__` returns an ordinary float; `UniformDist.__call__`
returns `-np.inf` outside the support.  Log-densities are therefore
valued in `EReal`, whose bottom element `⊥` models `-inf`, and sums
involving `⊥` stay `⊥` just as float arithmetic with `-inf` does.

Sampling (`np.random.normal`, `np.random.uniform`) is modeled with an
explicit stream of raw standard draws (`draws : ℕ → ℝ`); a request of
`size` values consumes `size` entries of the stream.  The claims settled
here only depend on how many values each `sample` produces. -/

/-- `np.random.normal(mean, std, size)`: `size` normal variates,
modeled as affine transforms of the raw draw stream. -/
def npRandomNormal (mean std : ℝ) (size : ℕ) (draws : ℕ → ℝ) : List ℝ :=
  (List.range size).map fun i => mean + std * draws i

/-- `np.random.uniform(lo, hi, size)`: `size` uniform variates. -/
def npRandomUniform (lo hi : ℝ) (size : ℕ) (draws : ℕ → ℝ) : List ℝ :=
  (List.range size).map fun i => lo + (hi - lo) * draws i

/-- `UniGaussianDist.sample(size)`: the source calls
`np.random.normal(self.mean, self.std, size=1)` — the literal `1`,
ignoring the `size` argument entirely. -/
def UniGaussianDist.sample (mean std : ℝ) (size : ℕ) (draws : ℕ → ℝ) : List ℝ :=
  npRandomNormal mean std 1 draws

/-- `UniformDist.sample(size)`: the source calls
`np.random.uniform(self.mean - hw, self.mean + hw, size=size)` with
`hw = 0.5*self.width`, honoring the `size` argument. -/
def UniformDist.sample (mean width : ℝ) (size : ℕ) (draws : ℕ → ℝ) : List ℝ :=
  npRandomUniform (mean - 0.5 * width) (mean + 0.5 * width) size draws

/-- `UniGaussianDist.__call__(x)`:
`-0.5*((x-mean)/std)**2 + lognorm` with
`lognorm = -0.5*np.log(2*np.pi*std**2)`. -/
noncomputable def UniGaussianDist.logdensity (mean std x : ℝ) : ℝ :=
  -0.5 * ((x - mean) / std) ^ 2 + -0.5 * Real.log (2 * Real.pi * std ^ 2)

open Classical in
/-- `UniformDist.__call__(x)`:
`-np.inf if np.abs(x-mean) > 0.5*width else -np.log(width)`.
Note the strict `>`: the support boundary itself gets `-log(width)`. -/
noncomputable def UniformDist.logdensity (mean width x : ℝ) : EReal :=
  if |x - mean| > 0.5 * width then ⊥ else ((-Real.log width : ℝ) : EReal)

/-- One prior attached to a `GeoEvent`, already applied to the event's
current parameter value — the quantity `dist(*pars)` that
`GeoEvent.log_prior` accumulates. -/
inductive PriorApp where
  | gauss (mean std x : ℝ)
  | unif (mean width x : ℝ)

/-- The log-density value a `PriorApp` contributes. -/
noncomputable def PriorApp.logdens : PriorApp → EReal
  | .gauss mean std x => ((UniGaussianDist.logdensity mean std x : ℝ) : EReal)
  | .unif mean width x => UniformDist.logdensity mean width x

/-- `GeoEvent.log_prior()`: `lP = 0.0` then `lP += dist(*pars)` over the
event's priors, left to right. -/
noncomputable def GeoEvent.log_prior (ps : List PriorApp) : EReal :=
  ps.foldl (fun a p => a + p.logdens) 0

/-- `GeoHistory.logprior()`:
`np.sum([event.log_prior() for event in self.event_list])`. -/
noncomputable def GeoHistory.logprior (evs : List (List PriorApp)) : EReal :=
  (evs.map GeoEvent.log_prior).foldl (· + ·) 0

/-! ## Geometry and the `rockprops` field evaluators

Query points are 3-D vectors; numpy's elementwise array pipeline is
modeled per point with `List.map`.  An event's predecessor is passed as
the pointwise field its `rockprops` computes
(`g : Vec3 → ℝ → ℝ`, position and scale `h` to density), since every
event variant's output at one query point depends only on that point. -/

/-- A 3-D point/vector. -/
structure Vec3 where
  x : ℝ
  y : ℝ
  z : ℝ

/-- Componentwise vector addition. -/
def Vec3.add (a b : Vec3) : Vec3 := ⟨a.x + b.x, a.y + b.y, a.z + b.z⟩

/-- Componentwise vector subtraction. -/
def Vec3.sub (a b : Vec3) : Vec3 := ⟨a.x - b.x, a.y - b.y, a.z - b.z⟩

/-- `np.dot` of two 3-vectors. -/
def Vec3.dot (a b : Vec3) : ℝ := a.x * b.x + a.y * b.y + a.z * b.z

/-- `np.cross` of two 3-vectors. -/
def Vec3.cross (a b : Vec3) : Vec3 :=
  ⟨a.y * b.z - a.z * b.y, a.z * b.x - a.x * b.z, a.x * b.y - a.y * b.x⟩

/-- `l2norm(v)` for a single 3-vector:
`np.sqrt(np.sum(np.atleast_2d(v**2), axis=1))`. -/
noncomputable def l2norm (v : Vec3) : ℝ :=
  Real.sqrt (v.x ^ 2 + v.y ^ 2 + v.z ^ 2)

/-- `sph2xyz(th, ph)`: unit vector from elevation `th` and azimuth `ph`
in degrees (`np.radians` scales by `π/180`). -/
noncomputable def sph2xyz (th ph : ℝ) : Vec3 :=
  let thr := th * (Real.pi / 180)
  let phr := ph * (Real.pi / 180)
  ⟨Real.cos thr * Real.cos phr, Real.cos thr * Real.sin phr, Real.sin thr⟩

/-- `BasementEvent.rockprops(r, h)`:
`self.density * np.ones(shape=r.shape[:-1])`. -/
def BasementEvent.rockprops (density : ℝ) (r : List Vec3) (_h : ℝ) : List ℝ :=
  r.map fun _ => density

/-- The pointwise field of a basement event, used as a predecessor. -/
def BasementEvent.field (density : ℝ) : Vec3 → ℝ → ℝ := fun _ _ => density

/-- `StratLayerEvent.rockprops(r, h)`: shift every point by
`(0, 0, thickness)`, evaluate the predecessor at the shifted points
(`rho_down`), and blend towards the layer's own `density` (`rho_up`)
with `soft_if_then` keyed on the shifted vertical coordinate. -/
noncomputable def StratLayerEvent.rockprops (thickness density : ℝ)
    (g : Vec3 → ℝ → ℝ) (r : List Vec3) (h : ℝ) : List ℝ :=
  r.map fun p =>
    let rp := Vec3.add p ⟨0, 0, thickness⟩
    soft_if_then rp.z (g rp h) density h

/-- `PlanarFaultEvent.rockprops(r, h)`: plane through
`r0 = (x0, y0, 0)` with unit normal `n = sph2xyz(nth, nph)`; slip
direction `v = cross(cross(ẑ, n), n)` normalized; displacement
`rdelt = s * v / l2norm(v)`; blends the predecessor field at the
original points (`g0`) and at the displaced points (`g1`) with
`soft_if_then` keyed on the signed plane distance `dot(r - r0, n)`. -/
noncomputable def PlanarFaultEvent.rockprops (x0 y0 nth nph s : ℝ)
    (g : Vec3 → ℝ → ℝ) (r : List Vec3) (h : ℝ) : List ℝ :=
  let r0 : Vec3 := ⟨x0, y0, 0⟩
  let n := sph2xyz nth nph
  let v := Vec3.cross (Vec3.cross ⟨0, 0, 1⟩ n) n
  let nv := l2norm v
  let rdelt : Vec3 := ⟨s * v.x / nv, s * v.y / nv, s * v.z / nv⟩
  r.map fun p =>
    soft_if_then (Vec3.dot (Vec3.sub p r0) n) (g p h) (g (Vec3.add p rdelt) h) h

/-! ## Keyword parameter overrides: `GeoEvent.set_kw_attrs`

The source reads

  `for key, val in kwargs: if key in self._pars or key in self._hypars: setattr(self, key, val)`

Iterating a Python dict yields its KEYS (strings), so `key, val`
tuple-unpacks each key string into its characters: a `ValueError`
unless the key has exactly two characters, in which case `key` and
`val` are its two characters; and `GeoEvent` declares no `_hypars`
attribute, so reaching `key in self._hypars` raises `AttributeError`.
Attribute values can therefore be floats (from the prior draw) or
stray strings, modeled by `PyObj`. -/

/-- A Python attribute value: a float or a string. -/
inductive PyObj where
  | num (v : ℝ)
  | str (s : String)

/-- `setattr(self, key, val)` on the attribute association list:
update the attribute if present, create it otherwise. -/
def pySetattr (attrs : List (String × PyObj)) (key : String) (v : PyObj) :
    List (String × PyObj) :=
  if attrs.any fun kv => kv.1 = key then
    attrs.map fun kv => if kv.1 = key then (kv.1, v) else kv
  else
    attrs ++ [(key, v)]

/-- `GeoEvent.set_kw_attrs(**kwargs)` as executed by Python: iterate
the keyword KEYS; tuple-unpack each key string into `(key, val)`
(error unless it has exactly 2 characters); test membership of the
first character in `_pars`, short-circuiting to the nonexistent
`_hypars` attribute (always an `AttributeError`) when absent. -/
def set_kw_attrs (pars : List String) (attrs : List (String × PyObj)) :
    List String → Except String (List (String × PyObj))
  | [] => Except.ok attrs
  | k :: rest =>
    if k.length = 2 then
      let key := k.take 1
      let val := k.drop 1
      if key ∈ pars then
        set_kw_attrs pars (pySetattr attrs key (.str val)) rest
      else
        Except.error "AttributeError: GeoEvent object has no attribute _hypars"
    else
      Except.error "ValueError: values to unpack"

/-! ## Chain construction: `GeoHistory.add_event` -/

/-- The concrete `GeoEvent` subclasses of the source. -/
inductive EventKind where
  | basement
  | stratLayer
  | planarFault
  | fold
deriving DecidableEq

/-- A `GeoEvent` for chain-structure purposes: its variant tag and its
`previous_event` back-reference, modeled as the index of the
predecessor in the owning history (`none` when unset, the state
`__init__` leaves it in). -/
structure GEvent where
  kind : EventKind
  prev : Option ℕ := none
deriving DecidableEq

/-- `GeoHistory.add_event(event)`: when the list is empty it runs
`assert(isinstance(event, BasementEvent))` and appends; otherwise it
runs `assert(isinstance(event, GeoEvent))` — which any event satisfies —
then `event.set_previous_event(self.event_list[-1])` and appends.
A failed `assert` is modeled as `Except.error`. -/
def add_event (hist : List GEvent) (e : GEvent) : Except String (List GEvent) :=
  if hist.length = 0 then
    if e.kind = .basement then
      Except.ok (hist ++ [e])
    else
      Except.error "AssertionError"
  else
    Except.ok (hist ++ [{ e with prev := some (hist.length - 1) }])

end Blockworlds

namespace Blockworlds

/-- Folding `+` over `EReal` from an accumulator is the accumulator
plus the list sum. -/
theorem ereal_foldl_add (l : List EReal) (a : EReal) :
    l.foldl (· + ·) a = a + l.sum := by
  induction l generalizing a with
  | nil => simp
  | cons x xs ih => simp [List.foldl_cons, ih, add_assoc]

/-- `GeoEvent.log_prior`'s accumulation is the sum of its priors'
log-density values. -/
theorem log_prior_eq_sum (ps : List PriorApp) :
    GeoEvent.log_prior ps = (ps.map PriorApp.logdens).sum := by
  unfold GeoEvent.log_prior
  have : ∀ a : EReal, ps.foldl (fun b p => b + p.logdens) a =
      a + (ps.map PriorApp.logdens).sum := by
    induction ps with
    | nil => intro a; simp
    | cons q qs ih => intro a; simp [List.foldl_cons, ih, add_assoc]
  simpa using this 0

/-- A list sum in `EReal` containing `⊥` is `⊥`: `-inf` propagates
through addition arithmetically. -/
theorem ereal_sum_eq_bot (l : List EReal) (hl : ⊥ ∈ l) : l.sum = ⊥ := by
  induction l with
  | nil => cases hl
  | cons x xs ih =>
    rcases List.mem_cons.mp hl with hx | hxs
    · simp [List.sum_cons, ← hx, EReal.bot_add]
    · simp [List.sum_cons, ih hxs, EReal.add_bot]

/-- C1: for every chain of events with their parameters set,
`deserialize(serialize())` is the identity on the chain's parameter
state: serialize concatenates the per-event parameter vectors in chain
order and deserialize splits the flat vector back into those chunks and
assigns them. -/
theorem deserialize_serialize_id (h : List (List ℝ)) :
    historyDeserialize h (historySerialize h) = h := by
  induction h with
  | nil => rfl
  | cons e es ih =>
    simp only [historySerialize, List.flatten_cons] at *
    simp only [historyDeserialize, List.take_left, List.drop_left, eventDeserialize,
      List.drop_length, List.append_nil, ih]

/-- C2 counterexample: `GeoHistory.deserialize` does NOT fail on a
length mismatch.  For the two-event chain with parameter state
`[[3], [100, 2.5]]` (total parameter count 3), deserializing the
length-1 vector `[1]` completes without error: it overwrites the first
event's single parameter with 1 and leaves the second event untouched. -/
theorem deserialize_no_length_check :
    historyDeserialize [[(3 : ℝ)], [100, 2.5]] [1] = [[1], [100, 2.5]] ∧
      totalNpars [[(3 : ℝ)], [100, 2.5]] ≠ 1 := by
  constructor
  · simp [historyDeserialize, eventDeserialize]
  · simp [totalNpars]

/-- C2 (amended): `deserialize` performs no length check and never
fails; a vector of mismatched length is silently consumed as far as it
goes (short input assigns an initial segment of the chain's parameters,
a long input's tail is dropped).  When the input length matches the
chain's total parameter count, it splits and assigns in chain order: in
that case serializing the deserialized state returns the input vector. -/
theorem deserialize_assigns_on_matching_length (h : List (List ℝ)) (pvec : List ℝ)
    (hlen : pvec.length = totalNpars h) :
    historySerialize (historyDeserialize h pvec) = pvec := by
  induction h generalizing pvec with
  | nil =>
    simp only [totalNpars, List.map_nil, List.sum_nil, List.length_eq_zero] at hlen
    simp [historyDeserialize, historySerialize, hlen]
  | cons e es ih =>
    simp only [totalNpars, List.map_cons, List.sum_cons] at hlen
    have hle : e.length ≤ pvec.length := by omega
    have htake : (pvec.take e.length).length = e.length := by
      simp [List.length_take, Nat.min_eq_left hle]
    have hdroplen : (pvec.drop e.length).length = totalNpars es := by
      simp only [List.length_drop, hlen, totalNpars]
      omega
    simp only [historyDeserialize, historySerialize, List.flatten_cons]
    rw [eventDeserialize, htake, List.drop_length, List.append_nil]
    have hrest := ih _ hdroplen
    simp only [historySerialize] at hrest
    rw [hrest]
    exact List.take_append_drop _ _

/-- C2 witness: a matching-length input for the concrete chain
`[[3], [100, 2.5]]` is split and assigned in chain order. -/
theorem deserialize_assigns_on_matching_length_witness :
    ([(1 : ℝ), 2, 3] : List ℝ).length = totalNpars [[(3 : ℝ)], [100, 2.5]] ∧
      historySerialize (historyDeserialize [[(3 : ℝ)], [100, 2.5]] [1, 2, 3]) = [1, 2, 3] :=
  ⟨by simp [totalNpars],
   deserialize_assigns_on_matching_length [[(3 : ℝ)], [100, 2.5]] [1, 2, 3]
     (by simp [totalNpars])⟩

/-- C4: for positive transition scale `h`, `soft_if_then` returns
exactly `y0` when `d ≤ -h/2`, exactly `y1` when `d ≥ h/2`, the linear
interpolation `0.5*(y0+y1) - (y0-y1)*d/h` strictly between, and
`0.5*(y0+y1)` at `d = 0`. -/
theorem soft_if_then_spec (d y0 y1 h : ℝ) (hh : 0 < h) :
    (d ≤ -(h / 2) → soft_if_then d y0 y1 h = y0) ∧
      (h / 2 ≤ d → soft_if_then d y0 y1 h = y1) ∧
      (-(h / 2) < d → d < h / 2 →
        soft_if_then d y0 y1 h = 0.5 * (y0 + y1) - (y0 - y1) * d / h) ∧
      (d = 0 → soft_if_then d y0 y1 h = 0.5 * (y0 + y1)) := by
  have hne : h ≠ 0 := ne_of_gt hh
  refine ⟨?_, ?_, ?_, ?_⟩
  · intro hd
    simp only [soft_if_then]
    rw [if_neg (by simp only [not_lt]; linarith)]
    rcases lt_or_eq_of_le hd with hlt | heq
    · rw [if_pos (by linarith)]
    · rw [if_neg (by simp only [not_lt]; linarith)]
      rw [heq]
      field_simp
      ring
  · intro hd
    simp only [soft_if_then]
    rcases lt_or_eq_of_le hd with hlt | heq
    · rw [if_pos (by linarith)]
    · rw [if_neg (by simp only [not_lt]; linarith)]
      rw [if_neg (by simp only [not_lt]; linarith)]
      rw [← heq]
      field_simp
      ring
  · intro hlo hhi
    simp only [soft_if_then]
    rw [if_neg (by simp only [not_lt]; linarith),
      if_neg (by simp only [not_lt]; linarith)]
  · intro hd
    subst hd
    simp only [soft_if_then]
    rw [if_neg (by simp only [not_lt]; linarith),
      if_neg (by simp only [not_lt]; linarith)]
    simp

/-- C4 witness: at `h = 2`, the three regimes evaluated concretely:
`soft_if_then (-1) 2 5 2 = 2` (lower limit, boundary `d = -h/2`),
`soft_if_then 3 2 5 2 = 5` (upper limit), and
`soft_if_then 0 2 5 2 = 3.5` (midpoint `0.5*(y0+y1)`). -/
theorem soft_if_then_spec_witness :
    (0 : ℝ) < 2 ∧ soft_if_then (-1) 2 5 2 = 2 ∧ soft_if_then 3 2 5 2 = 5 ∧
      soft_if_then 0 2 5 2 = 0.5 * (2 + 5) :=
  ⟨by norm_num,
   (soft_if_then_spec (-1) 2 5 2 (by norm_num)).1 (by norm_num),
   (soft_if_then_spec 3 2 5 2 (by norm_num)).2.1 (by norm_num),
   (soft_if_then_spec 0 2 5 2 (by norm_num)).2.2.2 rfl⟩

/-- C3 counterexample: appending a second Basement event to a non-empty
chain does NOT fail.  The non-empty branch of `add_event` only asserts
`isinstance(event, GeoEvent)`, which a `BasementEvent` satisfies, so the
second basement is linked to the previous event and appended. -/
theorem add_event_second_basement_succeeds :
    add_event [{ kind := .basement, prev := none }] { kind := .basement, prev := none } =
      Except.ok [{ kind := .basement, prev := none },
                 { kind := .basement, prev := some 0 }] := by
  rfl

/-- C3 (amended): `add_event` fails exactly when the history is empty
and the event is not a Basement variant; appending to a non-empty chain
always succeeds — even for a second Basement event — linking the event
to the current last event and appending it; appending a Basement to an
empty chain succeeds and appends it with its predecessor still unset. -/
theorem add_event_spec (hist : List GEvent) (e : GEvent) :
    (add_event hist e = Except.error "AssertionError" ↔
        hist = [] ∧ e.kind ≠ .basement) ∧
      (hist ≠ [] →
        add_event hist e =
          Except.ok (hist ++ [{ e with prev := some (hist.length - 1) }])) ∧
      (hist = [] → e.kind = .basement → add_event hist e = Except.ok [e]) := by
  refine ⟨?_, ?_, ?_⟩
  · unfold add_event
    rcases hist with _ | ⟨a, hist⟩
    · by_cases hk : e.kind = .basement <;> simp [hk]
    · simp
  · intro hne
    unfold add_event
    rcases hist with _ | ⟨a, hist⟩
    · exact absurd rfl hne
    · simp
  · intro hempty hk
    subst hempty
    unfold add_event
    simp [hk]

/-- C3 witness: on the concrete one-event chain `[basement]`, appending
a stratigraphic-layer event succeeds and links it to event 0; and
appending a fault event to the empty chain fails. -/
theorem add_event_spec_witness :
    (([{ kind := .basement, prev := none }] : List GEvent) ≠ [] ∧
        add_event [{ kind := .basement, prev := none }]
            { kind := .stratLayer, prev := none } =
          Except.ok [{ kind := .basement, prev := none },
                     { kind := .stratLayer, prev := some 0 }]) ∧
      (add_event ([] : List GEvent) { kind := .planarFault, prev := none } =
          Except.error "AssertionError" ↔
        (([] : List GEvent) = [] ∧ EventKind.planarFault ≠ EventKind.basement)) :=
  ⟨⟨by decide,
    (add_event_spec [{ kind := .basement, prev := none }]
        { kind := .stratLayer, prev := none }).2.1 (by decide)⟩,
   (add_event_spec ([] : List GEvent) { kind := .planarFault, prev := none }).1⟩

/-- C5: the code bug evaluated.  `UniGaussianDist.sample(3)` yields a
single draw — the source hardcodes `size=1` in its `np.random.normal`
call — while `UniformDist.sample(3)` correctly yields three draws, so
the common "sample(n) returns n values" contract is broken by the
Gaussian variant. -/
theorem uniGaussian_sample_ignores_size :
    (UniGaussianDist.sample 0 1 3 fun _ => 0).length = 1 ∧
      (UniformDist.sample 0 1 3 fun _ => 0).length = 3 ∧
      ¬(UniGaussianDist.sample 0 1 3 fun _ => 0).length = 3 := by
  refine ⟨?_, ?_, ?_⟩ <;>
    simp [UniGaussianDist.sample, UniformDist.sample, npRandomNormal, npRandomUniform]

/-- C6: `GeoHistory.logprior()` is the sum over events of the sum of
each event's prior log-densities at the current parameter values, and
whenever any prior evaluates to `⊥` (`-np.inf`), the whole log-prior is
`⊥` — obtained arithmetically through the sum, the evaluation being a
total function with no failure outcome. -/
theorem logprior_spec (evs : List (List PriorApp)) :
    GeoHistory.logprior evs = (evs.map fun ev => (ev.map PriorApp.logdens).sum).sum ∧
      ∀ ev ∈ evs, ∀ p ∈ ev, PriorApp.logdens p = ⊥ → GeoHistory.logprior evs = ⊥ := by
  have hform : GeoHistory.logprior evs =
      (evs.map fun ev => (ev.map PriorApp.logdens).sum).sum := by
    unfold GeoHistory.logprior
    rw [ereal_foldl_add, zero_add]
    congr 1
    exact List.map_congr_left fun ev _ => log_prior_eq_sum ev
  refine ⟨hform, ?_⟩
  intro ev hev p hp hbot
  rw [hform]
  apply ereal_sum_eq_bot
  have hevbot : (ev.map PriorApp.logdens).sum = ⊥ := by
    apply ereal_sum_eq_bot
    rw [← hbot]
    exact List.mem_map_of_mem PriorApp.logdens hp
  rw [← hevbot]
  exact List.mem_map_of_mem _ hev

/-- C6 witness: the two-event chain `[Basement with Gaussian prior at
its mean, an event with a Uniform(0,2) prior evaluated at 5]` —
parameter 5 lies outside the uniform support, its log-density is `⊥`,
and the chain's log-prior is `⊥`. -/
theorem logprior_spec_witness :
    PriorApp.logdens (.unif 0 2 5) = ⊥ ∧
      GeoHistory.logprior [[.gauss 0 1 0], [.unif 0 2 5]] = ⊥ := by
  have hbot : PriorApp.logdens (.unif 0 2 5) = ⊥ := by
    rw [PriorApp.logdens, UniformDist.logdensity, if_pos (by norm_num)]
  exact ⟨hbot,
    (logprior_spec [[.gauss 0 1 0], [.unif 0 2 5]]).2 [.unif 0 2 5]
      (by simp) (.unif 0 2 5) (by simp) hbot⟩

/-- C10: the `UniformDist` support boundary is inclusive: at
`|x - mean| = width/2` the log-density is `-log(width)`, and the
log-density is `-inf` exactly when `|x - mean|` is strictly greater
than `width/2` (the source tests `np.abs(x-mean) > 0.5*width`). -/
theorem uniformDist_boundary_inclusive (mean width x : ℝ) :
    (|x - mean| = 0.5 * width →
        UniformDist.logdensity mean width x = ((-Real.log width : ℝ) : EReal)) ∧
      (UniformDist.logdensity mean width x = ⊥ ↔ |x - mean| > 0.5 * width) := by
  constructor
  · intro hb
    rw [UniformDist.logdensity, if_neg (by rw [hb]; exact lt_irrefl _)]
  · rw [UniformDist.logdensity]
    by_cases hgt : |x - mean| > 0.5 * width
    · simp [hgt]
    · simp only [hgt, if_false, iff_false]
      exact fun hc => EReal.coe_ne_bot _ hc

/-- C10 witness: `UniformDist(mean=0, width=2)` at the boundary point
`x = 1` returns `-log 2`, not `-inf`. -/
theorem uniformDist_boundary_inclusive_witness :
    |(1 : ℝ) - 0| = 0.5 * 2 ∧
      UniformDist.logdensity 0 2 1 = ((-Real.log 2 : ℝ) : EReal) :=
  ⟨by norm_num, (uniformDist_boundary_inclusive 0 2 1).1 (by norm_num)⟩

/-- Blending a field with itself is the identity: every branch of
`soft_if_then d y y h` returns `y`. -/
theorem soft_if_then_self (d y h : ℝ) : soft_if_then d y y h = y := by
  simp only [soft_if_then]
  split_ifs <;> ring

/-- Adding the zero vector is the identity. -/
theorem Vec3.add_zero_vec (p : Vec3) : Vec3.add p ⟨0, 0, 0⟩ = p := by
  cases p
  simp [Vec3.add]

/-- C7: a `PlanarFaultEvent` with slip `s = 0` returns exactly the
predecessor's field value at every query point, for every choice of
`x0`, `y0`, `nth` (elevation) and `nph` (azimuth): the displacement
`rdelt = 0 * v/|v|` vanishes, so the offset field `g1` equals the
unoffset field `g0` and the smooth-step blend is a no-op. -/
theorem planarFault_zero_slip (x0 y0 nth nph : ℝ) (g : Vec3 → ℝ → ℝ)
    (r : List Vec3) (h : ℝ) :
    PlanarFaultEvent.rockprops x0 y0 nth nph 0 g r h = r.map fun p => g p h := by
  simp only [PlanarFaultEvent.rockprops, zero_mul, zero_div]
  apply List.map_congr_left
  intro p _
  rw [Vec3.add_zero_vec, soft_if_then_self]

/-- C8 counterexample: the chain
`[Basement(density=3.0), StratigraphicLayer(thickness=100, density=2.5)]`
evaluated at `[(0,0,-200), (0,0,0), (0,0,200)]` with `scale = 10`
yields `[3.0, 2.5, 2.5]` — the deepest point gets the basement density
3.0 and the upper two get the layer density 2.5 — not
`[2.5, 2.5, 3.0]` as claimed: the first density is 3.0, not
approximately 2.5. -/
theorem strat_chain_eval_counterexample :
    StratLayerEvent.rockprops 100 2.5 (BasementEvent.field 3)
        [⟨0, 0, -200⟩, ⟨0, 0, 0⟩, ⟨0, 0, 200⟩] 10 = [3, 2.5, 2.5] ∧
      (StratLayerEvent.rockprops 100 2.5 (BasementEvent.field 3)
        [⟨0, 0, -200⟩, ⟨0, 0, 0⟩, ⟨0, 0, 200⟩] 10).head? ≠ some (2.5 : ℝ) := by
  have heval : StratLayerEvent.rockprops 100 2.5 (BasementEvent.field 3)
      [⟨0, 0, -200⟩, ⟨0, 0, 0⟩, ⟨0, 0, 200⟩] 10 = [3, 2.5, 2.5] := by
    simp only [StratLayerEvent.rockprops, BasementEvent.field, Vec3.add,
      List.map_cons, List.map_nil]
    norm_num [soft_if_then]
  refine ⟨heval, ?_⟩
  rw [heval]
  simp only [List.head?_cons, Option.some.injEq]
  norm_num

/-- C8 (amended): the chain
`[Basement(density=3.0), StratigraphicLayer(thickness=100, density=2.5)]`
at those points with `scale = 10` yields exactly `[3.0, 2.5, 2.5]` in
point order (basement below, layer above), and the exact mid-transition
value `0.5*(3.0+2.5) = 2.75` is attained where the shifted vertical
coordinate vanishes, i.e. at `z = -100`. -/
theorem strat_chain_eval :
    StratLayerEvent.rockprops 100 2.5 (BasementEvent.field 3)
        [⟨0, 0, -200⟩, ⟨0, 0, 0⟩, ⟨0, 0, 200⟩] 10 = [3, 2.5, 2.5] ∧
      StratLayerEvent.rockprops 100 2.5 (BasementEvent.field 3)
        [⟨0, 0, -100⟩] 10 = [2.75] := by
  constructor <;>
  · simp only [StratLayerEvent.rockprops, BasementEvent.field, Vec3.add,
      List.map_cons, List.map_nil]
    norm_num [soft_if_then]

/-- C9: the code bug evaluated.  Passing a keyword argument naming a
declared parameter does not set it: Python's `for key, val in kwargs`
iterates the dict's keys and tuple-unpacks each key string, so
`BasementEvent(priors, density=3.1)` raises `ValueError` (7 characters
cannot unpack into two targets), and a two-character name such as
`PlanarFaultEvent`'s `x0` survives unpacking — into characters
`'x', '0'` — only to raise `AttributeError` on the nonexistent
`self._hypars`. -/
theorem set_kw_attrs_raises :
    set_kw_attrs ["density"] [("density", PyObj.num 3.1)] ["density"] =
        Except.error "ValueError: values to unpack" ∧
      set_kw_attrs ["x0", "y0", "nth", "nph", "s"] [("x0", PyObj.num 0)] ["x0"] =
        Except.error "AttributeError: GeoEvent object has no attribute _hypars" := by
  constructor <;> rfl

end Blockworlds
